import Mathlib

/-!
Verification development for the Room engine (a small Doom-style port).

The definitions below are a shallow embedding of the Rust sources:
`wad/src/lib.rs` (WAD container), `map/src/lib.rs` (map geometry loader),
`player/src/lib.rs` (BSP tree loader and traversal) and
`renderer/src/lib.rs` (sprite depth sort).

Modelling conventions:
- bytes are `Nat` values (reduced mod 256 where multi-byte words are built);
- strings are lists of Unicode code points (`List Nat`);
- fallible Rust functions become `Except`-valued Lean functions;
- a Rust `Vec` index that may be out of bounds becomes an explicit
  `panicked` outcome of the `PRes` type;
- `f64` values are idealised as `Option Rat`: `none` plays the role of NaN
  and propagates through arithmetic, finite doubles are exact rationals.
-/

instance {ε α : Type} [DecidableEq ε] [DecidableEq α] : DecidableEq (Except ε α) := fun x y =>
  match x, y with
  | .ok a, .ok b =>
    if h : a = b then .isTrue (by rw [h]) else .isFalse (by intro hc; cases hc; exact h rfl)
  | .error a, .error b =>
    if h : a = b then .isTrue (by rw [h]) else .isFalse (by intro hc; cases hc; exact h rfl)
  | .ok _, .error _ => .isFalse (by intro hc; cases hc)
  | .error _, .ok _ => .isFalse (by intro hc; cases hc)

/-- Little-endian 16-bit word from two bytes (`byteorder::LittleEndian`). -/
def u16le (b0 b1 : Nat) : Nat := b0 % 256 + 256 * (b1 % 256)

/-- Reinterpret an unsigned 16-bit value as a signed `i16`. -/
def asI16 (n : Nat) : Int := if n % 65536 < 32768 then (n % 65536 : Int) else (n % 65536 : Int) - 65536

/-- Little-endian 32-bit word from a list of (at least) four bytes. -/
def u32v (l : List Nat) : Nat :=
  l.getD 0 0 % 256 + 256 * (l.getD 1 0 % 256) + 65536 * (l.getD 2 0 % 256)
    + 16777216 * (l.getD 3 0 % 256)

/-- True when a byte is a UTF-8 continuation byte (0x80..0xBF). -/
def isCont (b : Nat) : Bool := 0x80 ≤ b && b ≤ 0xBF

/-- Allowed second byte after a three-byte lead (E0 needs A0..BF, ED needs
80..9F, the rest need 80..BF), per the standard UTF-8 validation table. -/
def cont3Ok (lead b : Nat) : Bool :=
  if lead = 0xE0 then 0xA0 ≤ b && b ≤ 0xBF
  else if lead = 0xED then 0x80 ≤ b && b ≤ 0x9F
  else isCont b

/-- Allowed second byte after a four-byte lead (F0 needs 90..BF, F4 needs
80..8F, the rest need 80..BF). -/
def cont4Ok (lead b : Nat) : Bool :=
  if lead = 0xF0 then 0x90 ≤ b && b ≤ 0xBF
  else if lead = 0xF4 then 0x80 ≤ b && b ≤ 0x8F
  else isCont b

/-- Code point assembled from a two-byte UTF-8 sequence. -/
def cp2 (b0 b1 : Nat) : Nat := (b0 - 0xC0) * 64 + (b1 - 0x80)

/-- Code point assembled from a three-byte UTF-8 sequence. -/
def cp3 (b0 b1 b2 : Nat) : Nat := (b0 - 0xE0) * 4096 + (b1 - 0x80) * 64 + (b2 - 0x80)

/-- Code point assembled from a four-byte UTF-8 sequence. -/
def cp4 (b0 b1 b2 b3 : Nat) : Nat :=
  (b0 - 0xF0) * 262144 + (b1 - 0x80) * 4096 + (b2 - 0x80) * 64 + (b3 - 0x80)

/-- Best-effort UTF-8 decoding of a byte list into code points, embedding
`String::from_utf8_lossy`: every maximal invalid subsequence is replaced by
one U+FFFD (0xFFFD) following the substitution-of-maximal-subparts policy
of the Rust standard library validator. -/
def utf8Lossy : List Nat → List Nat
  | [] => []
  | b :: rest =>
    if b < 0x80 then b :: utf8Lossy rest
    else if 0xC2 ≤ b && b ≤ 0xDF then
      match rest with
      | [] => [0xFFFD]
      | c1 :: rest2 =>
        if isCont c1 then cp2 b c1 :: utf8Lossy rest2
        else 0xFFFD :: utf8Lossy (c1 :: rest2)
    else if 0xE0 ≤ b && b ≤ 0xEF then
      match rest with
      | [] => [0xFFFD]
      | c1 :: rest2 =>
        if cont3Ok b c1 then
          match rest2 with
          | [] => [0xFFFD]
          | c2 :: rest3 =>
            if isCont c2 then cp3 b c1 c2 :: utf8Lossy rest3
            else 0xFFFD :: utf8Lossy (c2 :: rest3)
        else 0xFFFD :: utf8Lossy (c1 :: rest2)
    else if 0xF0 ≤ b && b ≤ 0xF4 then
      match rest with
      | [] => [0xFFFD]
      | c1 :: rest2 =>
        if cont4Ok b c1 then
          match rest2 with
          | [] => [0xFFFD]
          | c2 :: rest3 =>
            if isCont c2 then
              match rest3 with
              | [] => [0xFFFD]
              | c3 :: rest4 =>
                if isCont c3 then cp4 b c1 c2 c3 :: utf8Lossy rest4
                else 0xFFFD :: utf8Lossy (c3 :: rest4)
            else 0xFFFD :: utf8Lossy (c2 :: rest3)
        else 0xFFFD :: utf8Lossy (c1 :: rest2)
    else 0xFFFD :: utf8Lossy rest

/-- Drop all trailing null code points, embedding `str::trim_end_matches`
applied with the null character. -/
def trimEndNulls (l : List Nat) : List Nat :=
  (l.reverse.dropWhile (fun c => c = 0)).reverse

/-- Decoding of an 8-byte WAD name field as performed by `WadFile::load`
and by the texture-name fields of the map loader:
`String::from_utf8_lossy(bytes).trim_end_matches(null).to_string()`. -/
def decodeName (bytes : List Nat) : List Nat := trimEndNulls (utf8Lossy bytes)

/-- Error type of the WAD container loader, embedding `WadError`:
`invalidSignature` is `WadError::InvalidSignature` and `io` stands for any
propagated `std::io` failure (a seek or read past the end of the stream). -/
inductive WadError where
  | invalidSignature : WadError
  | io : WadError
deriving DecidableEq

/-- One directory entry after loading, embedding `WadLump`. -/
structure WadLump where
  name : List Nat
  data : List Nat
deriving DecidableEq

/-- The loaded container, embedding `WadFile`. -/
structure WadFile where
  lumps : List WadLump
deriving DecidableEq

/-- Exact read of `n` bytes at absolute position `pos` of the stream,
embedding a `Seek` to `pos` followed by `read_exact` on an `n`-byte
buffer: it fails with an I/O error iff the read would run past the end. -/
def rdBytes (s : List Nat) (pos n : Nat) : Except WadError (List Nat) :=
  if pos + n ≤ s.length then .ok ((s.drop pos).take n) else .error .io

/-- The directory-reading loop of `WadFile::load`: starting at directory
position `pos`, read `count` entries of 16 bytes (offset, size, name),
fetch each data block at its stated offset, and return to the directory. -/
def readEntries (s : List Nat) : Nat → Nat → Except WadError (List WadLump)
  | 0, _ => .ok []
  | Nat.succ c, pos =>
    match rdBytes s pos 4 with
    | .error e => .error e
    | .ok ob =>
      match rdBytes s (pos + 4) 4 with
      | .error e => .error e
      | .ok sb =>
        match rdBytes s (pos + 8) 8 with
        | .error e => .error e
        | .ok nb =>
          match rdBytes s (u32v ob) (u32v sb) with
          | .error e => .error e
          | .ok data =>
            match readEntries s c (pos + 16) with
            | .error e => .error e
            | .ok rest => .ok (⟨decodeName nb, data⟩ :: rest)

/-- The magic bytes "IWAD". -/
def iwadMagic : List Nat := [73, 87, 65, 68]

/-- The magic bytes "PWAD". -/
def pwadMagic : List Nat := [80, 87, 65, 68]

/-- Embedding of `WadFile::load` over an in-memory byte stream: read the
4-byte signature, reject anything other than IWAD/PWAD, read the lump
count and directory offset, then read the directory. -/
def wadLoad (s : List Nat) : Except WadError WadFile :=
  match rdBytes s 0 4 with
  | .error e => .error e
  | .ok sig =>
    if sig ≠ iwadMagic ∧ sig ≠ pwadMagic then .error .invalidSignature
    else
      match rdBytes s 4 4 with
      | .error e => .error e
      | .ok cb =>
        match rdBytes s 8 4 with
        | .error e => .error e
        | .ok db =>
          match readEntries s (u32v cb) (u32v db) with
          | .error e => .error e
          | .ok lumps => .ok ⟨lumps⟩

/-- Embedding of `Iterator::position` over the lump list as used by both
loaders to locate the map marker: index of the first lump with the given
name. -/
def firstIdx (nm : List Nat) : List WadLump → Option Nat
  | [] => none
  | l :: ls => if l.name = nm then some 0 else (firstIdx nm ls).map (· + 1)

/-- Embedding of `Iterator::find` over the lump list. -/
def findFirst (nm : List Nat) : List WadLump → Option WadLump
  | [] => none
  | l :: ls => if l.name = nm then some l else findFirst nm ls

/-- Embedding of `WadFile::find_lump`: the first lump whose name equals
the query exactly. -/
def findLump (w : WadFile) (nm : List Nat) : Option WadLump :=
  findFirst nm w.lumps

/-- Error type shared by the map-geometry and BSP loaders. In the Rust
sources both loaders use boxed dynamic errors; the two categories that
actually arise are the "Map not found" string error (`notFound`, the
specification's NotFound) and the cursor running past the end of a lump
while decoding a fixed-size record (`truncated`, the specification's
FormatError::Truncated, surfaced in Rust as an unexpected-EOF I/O error
from `byteorder` reads on an in-memory cursor). -/
inductive MapErr where
  | notFound : MapErr
  | truncated : MapErr
deriving DecidableEq

/-- Outcome of running a fallible Rust function that may also panic:
`ok`/`err` mirror `Result`, `panicked` models a Rust panic (here always an
out-of-bounds `Vec` index). -/
inductive PRes (ε α : Type) where
  | ok : α → PRes ε α
  | err : ε → PRes ε α
  | panicked : PRes ε α
deriving DecidableEq

/-- Sequencing of panicking computations: errors and panics propagate. -/
def pbind {ε α β : Type} : PRes ε α → (α → PRes ε β) → PRes ε β
  | .ok a, f => f a
  | .err e, _ => .err e
  | .panicked, _ => .panicked

@[simp] theorem pbind_ok {ε α β : Type} (a : α) (f : α → PRes ε β) : pbind (.ok a) f = f a := rfl

@[simp] theorem pbind_err {ε α β : Type} (e : ε) (f : α → PRes ε β) : pbind (.err e) f = .err e := rfl

@[simp] theorem pbind_panicked {ε α β : Type} (f : α → PRes ε β) : pbind (.panicked : PRes ε α) f = .panicked := rfl

/-- Lift a `Result` into the panicking outcome type (the Rust `?`). -/
def liftE {ε α : Type} : Except ε α → PRes ε α
  | .ok a => .ok a
  | .error e => .err e

/-- Embedding of the Rust `Vec` index `wad.lumps[j]`: panics when out of
bounds. -/
def idxLump (w : WadFile) (j : Nat) : PRes MapErr WadLump :=
  if h : j < w.lumps.length then .ok (w.lumps.get ⟨j, h⟩) else .panicked

/-- Iteration core of the per-lump record loop shared by every map
sub-lump parser: while bytes remain, decode one record of `size` bytes;
reading past the end of the lump (a remainder shorter than one record)
is the truncation error. `dec` receives exactly the bytes of one record.
The first argument is an iteration budget used only to make the
recursion structural; every call site passes the byte count, which
always suffices because each iteration consumes at least one byte. -/
def parseRecGo {α : Type} (size : Nat) (dec : List Nat → α) : Nat → List Nat → Except MapErr (List α)
  | _, [] => .ok []
  | 0, _ :: _ => .error .truncated
  | Nat.succ f, b :: rest =>
    if 1 ≤ size ∧ size ≤ rest.length + 1 then
      match parseRecGo size dec f ((b :: rest).drop size) with
      | .ok as => .ok (dec ((b :: rest).take size) :: as)
      | .error e => .error e
    else .error .truncated

/-- Generic embedding of the per-lump record loop: decode the lump as an
array of `size`-byte records, failing with the truncation error when the
byte length is not an exact multiple of the record size. -/
def parseRecords {α : Type} (size : Nat) (dec : List Nat → α) (l : List Nat) : Except MapErr (List α) :=
  parseRecGo size dec l.length l

/-- Little-endian u16 field at byte offset `k` of a record. -/
def u16at (bs : List Nat) (k : Nat) : Nat := u16le (bs.getD k 0) (bs.getD (k + 1) 0)

/-- Little-endian i16 field at byte offset `k` of a record. -/
def i16at (bs : List Nat) (k : Nat) : Int := asI16 (u16at bs k)

/-- Eight-byte name field at byte offset `k` of a record, decoded like a
lump name. -/
def nameAt (bs : List Nat) (k : Nat) : List Nat := decodeName ((bs.drop k).take 8)

/-- Map vertex (`Vertex` in `map/src/lib.rs`). -/
structure Vertex where
  x : Int
  y : Int
deriving DecidableEq

/-- Map linedef (`Linedef` in `map/src/lib.rs`). -/
structure Linedef where
  startVertex : Nat
  endVertex : Nat
  flags : Nat
  specialType : Nat
  sectorTag : Nat
  frontSidedef : Nat
  backSidedef : Nat
deriving DecidableEq

/-- Map sidedef (`Sidedef` in `map/src/lib.rs`). -/
structure Sidedef where
  xOffset : Int
  yOffset : Int
  upperTexture : List Nat
  lowerTexture : List Nat
  middleTexture : List Nat
  sector : Nat
deriving DecidableEq

/-- Map sector (`Sector` in `map/src/lib.rs`). -/
structure Sector where
  floorHeight : Int
  ceilingHeight : Int
  floorTexture : List Nat
  ceilingTexture : List Nat
  lightLevel : Int
  specialType : Nat
  tag : Nat
deriving DecidableEq

/-- Map thing (`Thing` in `map/src/lib.rs`). -/
structure Thing where
  x : Int
  y : Int
  angle : Nat
  thingType : Nat
  flags : Nat
deriving DecidableEq

/-- The loaded map geometry (`Map` in `map/src/lib.rs`). -/
structure GameMap where
  vertices : List Vertex
  linedefs : List Linedef
  sidedefs : List Sidedef
  sectors : List Sector
  things : List Thing
deriving DecidableEq

/-- Embedding of `Map::parse_vertices`: 4-byte records `x:i16, y:i16`. -/
def parseVertices : List Nat → Except MapErr (List Vertex) :=
  parseRecords 4 (fun bs => ⟨i16at bs 0, i16at bs 2⟩)

/-- Embedding of `Map::parse_linedefs`: 14-byte records of seven u16s. -/
def parseLinedefs : List Nat → Except MapErr (List Linedef) :=
  parseRecords 14 (fun bs =>
    ⟨u16at bs 0, u16at bs 2, u16at bs 4, u16at bs 6, u16at bs 8, u16at bs 10, u16at bs 12⟩)

/-- Embedding of `Map::parse_sidedefs`: 30-byte records with two i16
offsets, three 8-byte texture names and a u16 sector index. -/
def parseSidedefs : List Nat → Except MapErr (List Sidedef) :=
  parseRecords 30 (fun bs =>
    ⟨i16at bs 0, i16at bs 2, nameAt bs 4, nameAt bs 12, nameAt bs 20, u16at bs 28⟩)

/-- Embedding of `Map::parse_sectors`: 26-byte records. -/
def parseSectors : List Nat → Except MapErr (List Sector) :=
  parseRecords 26 (fun bs =>
    ⟨i16at bs 0, i16at bs 2, nameAt bs 4, nameAt bs 12, i16at bs 20, u16at bs 22, u16at bs 24⟩)

/-- Embedding of `Map::parse_things`: 10-byte records. -/
def parseThings : List Nat → Except MapErr (List Thing) :=
  parseRecords 10 (fun bs =>
    ⟨i16at bs 0, i16at bs 2, u16at bs 4, u16at bs 6, u16at bs 8⟩)

/-- Embedding of `Map::load_from_wad`: locate the marker lump by name,
then read the sub-lumps at fixed positional offsets from the marker, in
the evaluation order of the Rust source (vertices at +4, linedefs at +2,
sidedefs at +3, sectors at +8, things at +1); each `wad.lumps[i + k]`
index panics when out of bounds. -/
def mapLoadFromWad (w : WadFile) (mapName : List Nat) : PRes MapErr GameMap :=
  match firstIdx mapName w.lumps with
  | none => .err .notFound
  | some i =>
    pbind (idxLump w (i + 4)) (fun lv =>
    pbind (liftE (parseVertices lv.data)) (fun vertices =>
    pbind (idxLump w (i + 2)) (fun ll =>
    pbind (liftE (parseLinedefs ll.data)) (fun linedefs =>
    pbind (idxLump w (i + 3)) (fun ls =>
    pbind (liftE (parseSidedefs ls.data)) (fun sidedefs =>
    pbind (idxLump w (i + 8)) (fun lc =>
    pbind (liftE (parseSectors lc.data)) (fun sectors =>
    pbind (idxLump w (i + 1)) (fun lt =>
    pbind (liftE (parseThings lt.data)) (fun things =>
    .ok ⟨vertices, linedefs, sidedefs, sectors, things⟩))))))))))

/-- BSP node (`BspNode` in `player/src/lib.rs`); the bounding boxes keep
their four i16 entries as a list. -/
structure BspNode where
  x : Int
  y : Int
  dx : Int
  dy : Int
  bboxRight : List Int
  bboxLeft : List Int
  rightChild : Nat
  leftChild : Nat
deriving DecidableEq

/-- BSP subsector record (`Subsector` in `player/src/lib.rs`). -/
structure Subsector where
  segCount : Nat
  firstSeg : Nat
deriving DecidableEq

/-- BSP seg record (`Seg` in `player/src/lib.rs`). -/
structure Seg where
  startVertex : Nat
  endVertex : Nat
  angle : Nat
  linedef : Nat
  direction : Nat
  segOffset : Nat
deriving DecidableEq

/-- The loaded BSP index (`BspTree` in `player/src/lib.rs`). -/
structure BspTree where
  nodes : List BspNode
  subsectors : List Subsector
  segs : List Seg
deriving DecidableEq

/-- Embedding of `BspTree::parse_nodes`: 28-byte records. -/
def parseNodes : List Nat → Except MapErr (List BspNode) :=
  parseRecords 28 (fun bs =>
    ⟨i16at bs 0, i16at bs 2, i16at bs 4, i16at bs 6,
     [i16at bs 8, i16at bs 10, i16at bs 12, i16at bs 14],
     [i16at bs 16, i16at bs 18, i16at bs 20, i16at bs 22],
     u16at bs 24, u16at bs 26⟩)

/-- Embedding of `BspTree::parse_subsectors`: 4-byte records. -/
def parseSubsectors : List Nat → Except MapErr (List Subsector) :=
  parseRecords 4 (fun bs => ⟨u16at bs 0, u16at bs 2⟩)

/-- Embedding of `BspTree::parse_segs`: 12-byte records. -/
def parseSegs : List Nat → Except MapErr (List Seg) :=
  parseRecords 12 (fun bs =>
    ⟨u16at bs 0, u16at bs 2, u16at bs 4, u16at bs 6, u16at bs 8, u16at bs 10⟩)

/-- Embedding of `BspTree::load_from_wad`: same marker search, then nodes
at +7, subsectors at +6 and segs at +5, in the evaluation order of the
Rust source. -/
def bspLoadFromWad (w : WadFile) (mapName : List Nat) : PRes MapErr BspTree :=
  match firstIdx mapName w.lumps with
  | none => .err .notFound
  | some i =>
    pbind (idxLump w (i + 7)) (fun ln =>
    pbind (liftE (parseNodes ln.data)) (fun nodes =>
    pbind (idxLump w (i + 6)) (fun lu =>
    pbind (liftE (parseSubsectors lu.data)) (fun subsectors =>
    pbind (idxLump w (i + 5)) (fun lg =>
    pbind (liftE (parseSegs lg.data)) (fun segs =>
    .ok ⟨nodes, subsectors, segs⟩))))))

/-- Outcome of one bounded run of the recursive BSP traversal: `ok` is a
returned subsector list, `oob` is the panic from indexing the node array
out of bounds, `fuelOut` means the recursion is still running after the
given number of nested calls (used to express non-termination: a run that
is `fuelOut` for every fuel value never returns). -/
inductive TRes where
  | ok : List Nat → TRes
  | oob : TRes
  | fuelOut : TRes
deriving DecidableEq

/-- Sequencing of traversal outcomes; panic and fuel exhaustion propagate. -/
def tbind : TRes → (List Nat → TRes) → TRes
  | .ok l, f => f l
  | .oob, _ => .oob
  | .fuelOut, _ => .fuelOut

@[simp] theorem tbind_ok (l : List Nat) (f : List Nat → TRes) : tbind (.ok l) f = f l := rfl

@[simp] theorem tbind_oob (f : List Nat → TRes) : tbind .oob f = .oob := rfl

@[simp] theorem tbind_fuelOut (f : List Nat → TRes) : tbind .fuelOut f = .fuelOut := rfl

/-- Embedding of `BspTree::point_on_side`: the 2D cross product of the
viewer minus the node origin with the node direction. The f64 arithmetic
of the source is idealised as exact rational arithmetic. -/
def crossAt (x y : ℚ) (n : BspNode) : ℚ :=
  (x - (n.x : ℚ)) * (n.dy : ℚ) - (y - (n.y : ℚ)) * (n.dx : ℚ)

/-- Embedding of the return value of `BspTree::point_on_side`: 1 when the
cross product is strictly positive, otherwise -1. -/
def pointOnSide (x y : ℚ) (n : BspNode) : Int :=
  if 0 < crossAt x y n then 1 else -1

/-- Embedding of `BspTree::bbox_visible`: the source compares the
Euclidean distance from the viewer to the corner `(bbox[2], bbox[3])`
against 1000.0; since both sides are nonnegative this equals comparing
the squared distance against 1000000, which stays inside the rationals. -/
def bboxVisible (x y : ℚ) (bbox : List Int) : Bool :=
  decide (((bbox.getD 2 0 : ℚ) - x) ^ 2 + ((bbox.getD 3 0 : ℚ) - y) ^ 2 < 1000000)

/-- Embedding of `BspTree::traverse_bsp` with an explicit fuel bound on
the recursion depth (the source recursion has no guard of its own): a
reference with bit 0x8000 set is a leaf and yields its subsector index
with the bit cleared, before any indexing of the node array; otherwise
the node array is indexed (out of bounds panics), the viewer is
classified against the partition line, the near child is traversed
unconditionally and the far child only if its bounding box is visible. -/
def traverseBsp (t : BspTree) : Nat → ℚ → ℚ → Nat → TRes
  | 0, _, _, _ => .fuelOut
  | Nat.succ fuel, x, y, r =>
    if r &&& 0x8000 ≠ 0 then .ok [r &&& 0x7FFF]
    else
      if h : r < t.nodes.length then
        let node := t.nodes.get ⟨r, h⟩
        let side := pointOnSide x y node
        if side ≤ 0 then
          tbind (traverseBsp t fuel x y node.leftChild) (fun acc =>
            if bboxVisible x y node.bboxRight then
              tbind (traverseBsp t fuel x y node.rightChild) (fun acc2 => .ok (acc ++ acc2))
            else .ok acc)
        else
          tbind (traverseBsp t fuel x y node.rightChild) (fun acc =>
            if bboxVisible x y node.bboxLeft then
              tbind (traverseBsp t fuel x y node.leftChild) (fun acc2 => .ok (acc ++ acc2))
            else .ok acc)
      else .oob

/-- Idealised f64: `none` is NaN, `some q` a finite double. -/
abbrev FV : Type := Option ℚ

/-- Subtraction with NaN propagation. -/
def fvSub : FV → FV → FV
  | some a, some b => some (a - b)
  | _, _ => none

/-- Addition with NaN propagation. -/
def fvAdd : FV → FV → FV
  | some a, some b => some (a + b)
  | _, _ => none

/-- Squaring (`powi(2)`) with NaN propagation. -/
def fvSq : FV → FV
  | some a => some (a ^ 2)
  | none => none

/-- Embedding of `f64::partial_cmp`: `none` exactly when either operand
is NaN. -/
def fvCmp : FV → FV → Option Ordering
  | some a, some b => some (if a < b then .lt else if b < a then .gt else .eq)
  | _, _ => none

/-- A billboard sprite (`Sprite` in `renderer/src/lib.rs`), reduced to
the fields the depth sort reads. -/
structure Sprite where
  x : FV
  y : FV
deriving DecidableEq

/-- The viewer position fields of `Player` read by the sprite pass. -/
structure Viewer where
  x : FV
  y : FV
deriving DecidableEq

/-- Squared distance from a sprite to the viewer, with NaN propagation.
The source compares `sqrt` of this value; `sqrt` is strictly monotone on
the nonnegative reals and maps NaN to NaN, so comparisons of the square
roots coincide with comparisons of these radicands. -/
def distSq (s : Sprite) (p : Viewer) : FV :=
  fvAdd (fvSq (fvSub s.x p.x)) (fvSq (fvSub s.y p.y))

/-- The comparator closure of `Renderer::render_sprites`:
`dist_b.partial_cmp(&dist_a)` (descending by distance), before the
`unwrap` that turns a NaN comparison into a panic. -/
def spriteCmp (p : Viewer) (a b : Sprite) : Option Ordering :=
  fvCmp (distSq b p) (distSq a p)

/-- Insert into an already-sorted list, placing the new element after
every element not strictly greater than it (stable order); `none` models
the panic of `unwrap` when the comparator returns no ordering. -/
def insertCmp {α : Type} (cmp : α → α → Option Ordering) (a : α) : List α → Option (List α)
  | [] => some [a]
  | b :: bs =>
    match cmp a b with
    | none => none
    | some .lt => some (a :: b :: bs)
    | some _ => (insertCmp cmp a bs).map (fun r => b :: r)

/-- Stable sort by a partial comparator in the panic monad, embedding
`slice::sort_by` composed with the comparator `unwrap`: with a total
comparator it produces the stable sorted order; a comparison of a NaN
distance panics (`none`). -/
def sortCmp {α : Type} (cmp : α → α → Option Ordering) (l : List α) : Option (List α) :=
  l.foldlM (fun acc a => insertCmp cmp a acc) []

/-- The drawing order produced by `Renderer::render_sprites`: the sprite
list sorted by descending viewer distance; `none` is the panic raised by
`unwrap` inside the comparator when a distance is NaN. -/
def renderSpritesOrder (sprites : List Sprite) (p : Viewer) : Option (List Sprite) :=
  sortCmp (spriteCmp p) sprites

theorem parseRecGo_error_eq {α : Type} (size : Nat) (dec : List Nat → α) :
    ∀ (f : Nat) (l : List Nat) (e : MapErr), parseRecGo size dec f l = .error e → e = .truncated := by
  intro f
  induction f with
  | zero =>
    intro l e h
    cases l with
    | nil => simp [parseRecGo] at h
    | cons b rest =>
      simp [parseRecGo] at h
      exact h.symm
  | succ f ih =>
    intro l e h
    cases l with
    | nil => simp [parseRecGo] at h
    | cons b rest =>
      by_cases hc : 1 ≤ size ∧ size ≤ rest.length + 1
      · simp only [parseRecGo, if_pos hc] at h
        cases hrec : parseRecGo size dec f ((b :: rest).drop size) with
        | ok as => rw [hrec] at h; simp at h
        | error e2 =>
          rw [hrec] at h
          simp at h
          rw [← h]
          exact ih _ _ hrec
      · simp only [parseRecGo, if_neg hc] at h
        cases h
        rfl

theorem parseRecGo_dvd {α : Type} (size : Nat) (dec : List Nat → α) (hs : 1 ≤ size) :
    ∀ (f : Nat) (l : List Nat), l.length ≤ f →
      (size ∣ l.length ↔ ∃ as, parseRecGo size dec f l = .ok as) := by
  intro f
  induction f with
  | zero =>
    intro l hl
    have hnil : l = [] := List.eq_nil_of_length_eq_zero (Nat.le_zero.mp hl)
    subst hnil
    simp [parseRecGo]
  | succ f ih =>
    intro l hl
    cases l with
    | nil => simp [parseRecGo]
    | cons b rest =>
      by_cases hc : 1 ≤ size ∧ size ≤ rest.length + 1
      · have hlen : ((b :: rest).drop size).length ≤ f := by
          simp only [List.length_drop, List.length_cons]
          simp only [List.length_cons] at hl
          obtain ⟨hs1, hs2⟩ := hc
          omega
        have hdrop : ((b :: rest).drop size).length = (b :: rest).length - size := by
          simp [List.length_drop]
        constructor
        · intro hd
          have hd2 : size ∣ ((b :: rest).drop size).length := by
            rw [hdrop]
            exact Nat.dvd_sub' hd dvd_rfl
          obtain ⟨as, has⟩ := (ih _ hlen).mp hd2
          exact ⟨dec ((b :: rest).take size) :: as, by simp only [parseRecGo, if_pos hc, has]⟩
        · rintro ⟨as, has⟩
          simp only [parseRecGo, if_pos hc] at has
          cases hrec : parseRecGo size dec f ((b :: rest).drop size) with
          | ok as2 =>
            have hd2 : size ∣ ((b :: rest).drop size).length := (ih _ hlen).mpr ⟨as2, hrec⟩
            rw [hdrop] at hd2
            have hle : size ≤ (b :: rest).length := by
              simp only [List.length_cons]
              exact hc.2
            have := Nat.dvd_add hd2 (dvd_refl size)
            rwa [Nat.sub_add_cancel hle] at this
          | error e =>
            rw [hrec] at has
            simp at has
      · have hnd : ¬ size ∣ (b :: rest).length := by
          intro hd
          rcases hd with ⟨k, hk⟩
          rcases Nat.eq_zero_or_pos k with hk0 | hkpos
          · subst hk0; simp at hk
          · have : size ≤ (b :: rest).length := by
              rw [hk]
              calc size = size * 1 := by ring
                _ ≤ size * k := Nat.mul_le_mul_left size hkpos
            simp only [List.length_cons] at this
            exact hc ⟨hs, by omega⟩
        simp only [parseRecGo, if_neg hc]
        constructor
        · intro hd; exact absurd hd hnd
        · rintro ⟨as, has⟩; simp at has

theorem parseRecords_ok_iff {α : Type} (size : Nat) (dec : List Nat → α) (hs : 1 ≤ size) (l : List Nat) :
    (∃ as, parseRecords size dec l = .ok as) ↔ size ∣ l.length :=
  (parseRecGo_dvd size dec hs l.length l (Nat.le_refl _)).symm

theorem parseRecords_truncated_iff {α : Type} (size : Nat) (dec : List Nat → α) (hs : 1 ≤ size) (l : List Nat) :
    parseRecords size dec l = .error .truncated ↔ ¬ size ∣ l.length := by
  constructor
  · intro h hd
    obtain ⟨as, has⟩ := (parseRecords_ok_iff size dec hs l).mpr hd
    rw [h] at has
    cases has
  · intro hnd
    cases hres : parseRecords size dec l with
    | ok as => exact absurd ((parseRecords_ok_iff size dec hs l).mp ⟨as, hres⟩) hnd
    | error e =>
      rw [parseRecGo_error_eq size dec l.length l e hres]

/-- Data bytes of the lump at directory index `j` (empty when out of
range); used only to state theorems about the loaders. -/
def dataAt (w : WadFile) (j : Nat) : List Nat := (w.lumps.getD j ⟨[], []⟩).data

theorem pbind_eq_err {ε α β : Type} (m : PRes ε α) (f : α → PRes ε β) (e : ε) :
    pbind m f = .err e ↔ m = .err e ∨ ∃ a, m = .ok a ∧ f a = .err e := by
  cases m <;> simp [pbind]

theorem pbind_eq_ok {ε α β : Type} (m : PRes ε α) (f : α → PRes ε β) (b : β) :
    pbind m f = .ok b ↔ ∃ a, m = .ok a ∧ f a = .ok b := by
  cases m <;> simp [pbind]

theorem idxLump_eq_ok (w : WadFile) (j : Nat) (l : WadLump) :
    idxLump w j = .ok l ↔ ∃ h : j < w.lumps.length, l = w.lumps.get ⟨j, h⟩ := by
  unfold idxLump
  by_cases h : j < w.lumps.length
  · simp only [dif_pos h]
    constructor
    · intro hl
      cases hl
      exact ⟨h, rfl⟩
    · rintro ⟨h2, rfl⟩
      rfl
  · simp only [dif_neg h]
    constructor
    · intro hl; cases hl
    · rintro ⟨h2, _⟩; exact absurd h2 h

theorem idxLump_ne_err (w : WadFile) (j : Nat) (e : MapErr) : idxLump w j ≠ .err e := by
  unfold idxLump
  split
  · intro h; cases h
  · intro h; cases h

theorem idxLump_panicked (w : WadFile) (j : Nat) (h : w.lumps.length ≤ j) :
    idxLump w j = .panicked := by
  unfold idxLump
  rw [dif_neg (by omega)]

theorem liftE_eq_ok {ε α : Type} (m : Except ε α) (a : α) :
    liftE m = .ok a ↔ m = .ok a := by
  cases m <;> simp [liftE]

theorem liftE_eq_err {ε α : Type} (m : Except ε α) (e : ε) :
    liftE m = .err e ↔ m = .error e := by
  cases m <;> simp [liftE]

theorem dataAt_of_lt (w : WadFile) (j : Nat) (h : j < w.lumps.length) :
    dataAt w j = (w.lumps.get ⟨j, h⟩).data := by
  unfold dataAt
  rw [List.getD_eq_getElem w.lumps _ h]
  rfl

theorem firstIdx_none_iff (nm : List Nat) (ls : List WadLump) :
    firstIdx nm ls = none ↔ ∀ l ∈ ls, l.name ≠ nm := by
  induction ls with
  | nil => simp [firstIdx]
  | cons l ls ih =>
    by_cases h : l.name = nm
    · simp [firstIdx, h]
    · simp only [firstIdx, if_neg h, Option.map_eq_none', ih, List.mem_cons]
      constructor
      · rintro hall l2 (rfl | hmem)
        · exact h
        · exact hall l2 hmem
      · intro hall l2 hmem
        exact hall l2 (Or.inr hmem)

/-- A one-node BSP tree whose node references itself through both child
references (neither has the leaf bit set): a minimal cyclic node graph. -/
def cycTree : BspTree := ⟨[⟨0, 0, 0, 0, [0, 0, 0, 0], [0, 0, 0, 0], 0, 0⟩], [], []⟩

/-- A BSP tree with no nodes at all. -/
def emptyBsp : BspTree := ⟨[], [], []⟩

/-- The code points of the map marker name "MAP01". -/
def m01 : List Nat := [77, 65, 80, 48, 49]

/-- C1. The sprite pass is claimed to sort by descending distance with a
comparator that does not panic on NaN and to skip a NaN-distance sprite.
The source comparator is `dist_b.partial_cmp(&dist_a).unwrap()`: as soon
as a NaN distance is compared, `unwrap` panics and the frame is lost.
Concretely, with the viewer at the origin, one sprite at distance 1 and
one sprite whose x coordinate is NaN, the sort panics (`none`) instead of
completing with the NaN sprite skipped; a NaN sprite alone is never
compared, so the panic is precisely the comparator's doing. -/
theorem c1_sprite_sort_panics_on_nan :
    renderSpritesOrder [⟨some 1, some 0⟩, ⟨none, some 0⟩] ⟨some 0, some 0⟩ = none ∧
    renderSpritesOrder [⟨none, some 0⟩] ⟨some 0, some 0⟩ = some [⟨none, some 0⟩] ∧
    spriteCmp ⟨some 0, some 0⟩ ⟨none, some 0⟩ ⟨some 1, some 0⟩ = none := by
  refine ⟨by decide, by decide, by decide⟩

/-- C2. The BSP traversal is claimed to terminate on every input, with a
cyclic node graph detected and reported rather than recursed forever.
The source has no recursion-depth or visited-set guard: on the one-node
cyclic graph `cycTree`, starting at reference 0, the traversal is still
running after any number of nested calls, for every viewer position —
the recursion never terminates and no corrupt-format error exists in the
code. -/
theorem c2_cyclic_bsp_never_terminates :
    ∀ (fuel : Nat) (x y : ℚ), traverseBsp cycTree fuel x y 0 = .fuelOut := by
  intro fuel
  induction fuel with
  | zero => intro x y; rfl
  | succ fuel ih =>
    intro x y
    have hleaf : ¬ ((0 : Nat) &&& 0x8000 ≠ 0) := by decide
    have hlt : (0 : Nat) < cycTree.nodes.length := by decide
    have hnode : cycTree.nodes[0] = ⟨0, 0, 0, 0, [0, 0, 0, 0], [0, 0, 0, 0], 0, 0⟩ := rfl
    have hside : pointOnSide x y (⟨0, 0, 0, 0, [0, 0, 0, 0], [0, 0, 0, 0], 0, 0⟩ : BspNode) = -1 := by
      have hcross : crossAt x y (⟨0, 0, 0, 0, [0, 0, 0, 0], [0, 0, 0, 0], 0, 0⟩ : BspNode) = 0 := by
        simp [crossAt]
      simp [pointOnSide, hcross]
    simp only [traverseBsp, if_neg hleaf, dif_pos hlt, List.get_eq_getElem, hnode]
    rw [hside]
    norm_num
    rw [ih x y]
    rfl

/-- C3. The claim (and the comment in the source) says the 8-byte name
field is truncated at the first null byte. The source actually applies
`trim_end_matches`, which only removes trailing nulls: for the name
field "AB\0CD\0\0\0" the decoded name keeps the interior null and the
bytes after it ("AB\0CD" as code points 65 66 0 67 68), while truncation
at the first null would give "AB" (65 66). A full container load with
that directory name field shows the decoded lump name. -/
theorem c3_name_keeps_interior_nulls :
    decodeName [65, 66, 0, 67, 68, 0, 0, 0] = [65, 66, 0, 67, 68] ∧
    utf8Lossy (List.takeWhile (fun b => b ≠ 0) [65, 66, 0, 67, 68, 0, 0, 0]) = [65, 66] ∧
    ([65, 66, 0, 67, 68] : List Nat) ≠ [65, 66] ∧
    wadLoad [73, 87, 65, 68, 1, 0, 0, 0, 12, 0, 0, 0, 24, 0, 0, 0, 0, 0, 0, 0,
             65, 66, 0, 67, 68, 0, 0, 0]
      = .ok ⟨[⟨[65, 66, 0, 67, 68], []⟩]⟩ := by
  refine ⟨by decide, by decide, by decide, by decide⟩

/-- C6. Leaf classification of a BSP child reference, for every u16
reference value: a reference with bit 0x8000 set is a leaf and resolves
to subsector index `r &&& 0x7FFF` without the node array ever being
consulted (the equation holds for an arbitrary tree, including one with
no nodes); a reference with the bit clear is used to index the node
array (when it is out of range the traversal panics there), so the leaf
test is applied before any raw reference indexes the array. -/
theorem c6_leaf_classification (t : BspTree) (fuel : Nat) (x y : ℚ) (r : Nat)
    (hr : r < 65536) :
    (r &&& 0x8000 ≠ 0 → traverseBsp t (fuel + 1) x y r = .ok [r &&& 0x7FFF]) ∧
    (r &&& 0x8000 = 0 → t.nodes.length ≤ r → traverseBsp t (fuel + 1) x y r = .oob) := by
  constructor
  · intro hleaf
    simp only [traverseBsp, if_pos hleaf]
  · intro hleaf hlen
    have hnl : ¬ (r &&& 0x8000 ≠ 0) := by simp [hleaf]
    simp only [traverseBsp, if_neg hnl]
    rw [dif_neg (by omega)]

/-- Witness for C6 at concrete references: 32773 = 0x8005 is a leaf and
resolves to subsector 5 even in a tree with no nodes; the non-leaf
reference 3 indexes the empty node array and panics. -/
theorem c6_leaf_classification_witness :
    traverseBsp emptyBsp 1 0 0 32773 = .ok [5] ∧ traverseBsp emptyBsp 1 0 0 3 = .oob :=
  ⟨(c6_leaf_classification emptyBsp 0 0 0 32773 (by decide)).1 (by decide),
   (c6_leaf_classification emptyBsp 0 0 0 3 (by decide)).2 (by decide) (by decide)⟩

theorem rdBytes_error_eq (s : List Nat) (pos n : Nat) (e : WadError) :
    rdBytes s pos n = .error e → e = .io := by
  unfold rdBytes
  split
  · intro h; cases h
  · intro h; cases h; rfl

theorem readEntries_error_eq (s : List Nat) :
    ∀ (c pos : Nat) (e : WadError), readEntries s c pos = .error e → e = .io := by
  intro c
  induction c with
  | zero => intro pos e h; cases h
  | succ c ih =>
    intro pos e h
    simp only [readEntries] at h
    cases h1 : rdBytes s pos 4 with
    | error e1 => simp only [h1] at h; cases h; exact rdBytes_error_eq s pos 4 _ h1
    | ok ob =>
      simp only [h1] at h
      cases h2 : rdBytes s (pos + 4) 4 with
      | error e2 => simp only [h2] at h; cases h; exact rdBytes_error_eq s (pos + 4) 4 _ h2
      | ok sb =>
        simp only [h2] at h
        cases h3 : rdBytes s (pos + 8) 8 with
        | error e3 => simp only [h3] at h; cases h; exact rdBytes_error_eq s (pos + 8) 8 _ h3
        | ok nb =>
          simp only [h3] at h
          cases h4 : rdBytes s (u32v ob) (u32v sb) with
          | error e4 =>
            simp only [h4] at h
            cases h
            exact rdBytes_error_eq s (u32v ob) (u32v sb) _ h4
          | ok data =>
            simp only [h4] at h
            cases h5 : readEntries s c (pos + 16) with
            | error e5 => simp only [h5] at h; cases h; exact ih (pos + 16) _ h5
            | ok rest => simp only [h5] at h; cases h

/-- C5. `WadFile::load` fails with the bad-signature error exactly when
the first four bytes of the stream are not "IWAD" and not "PWAD": with a
recognised signature every later failure is an I/O error, never the
bad-signature error, and with an unrecognised signature the loader stops
immediately; the result type carries no lumps in the error case, so no
partial container escapes. -/
theorem c5_bad_signature_iff (s : List Nat) (h4 : 4 ≤ s.length) :
    wadLoad s = .error .invalidSignature ↔ (s.take 4 ≠ iwadMagic ∧ s.take 4 ≠ pwadMagic) := by
  have hr : rdBytes s 0 4 = .ok (s.take 4) := by
    unfold rdBytes
    rw [if_pos (by omega)]
    simp
  by_cases hsig : s.take 4 ≠ iwadMagic ∧ s.take 4 ≠ pwadMagic
  · simp only [wadLoad, hr, if_pos hsig]
    exact ⟨fun _ => hsig, fun _ => trivial⟩
  · simp only [wadLoad, hr, if_neg hsig]
    constructor
    · intro h
      exfalso
      cases h1 : rdBytes s 4 4 with
      | error e1 =>
        simp only [h1] at h
        cases h
        cases rdBytes_error_eq s 4 4 _ h1
      | ok cb =>
        simp only [h1] at h
        cases h2 : rdBytes s 8 4 with
        | error e2 =>
          simp only [h2] at h
          cases h
          cases rdBytes_error_eq s 8 4 _ h2
        | ok db =>
          simp only [h2] at h
          cases h3 : readEntries s (u32v cb) (u32v db) with
          | error e3 =>
            simp only [h3] at h
            cases h
            cases readEntries_error_eq s (u32v cb) (u32v db) _ h3
          | ok lumps => simp only [h3] at h; cases h
    · intro h
      exact absurd h hsig

/-- Witness for C5: the stream "XWAD" has four bytes and an unrecognised
signature, and the loader rejects it with the bad-signature error. -/
theorem c5_bad_signature_iff_witness :
    4 ≤ ([88, 87, 65, 68] : List Nat).length ∧
    wadLoad [88, 87, 65, 68] = .error .invalidSignature :=
  ⟨by decide, (c5_bad_signature_iff [88, 87, 65, 68] (by decide)).mpr (by decide)⟩

theorem findFirst_none_iff (nm : List Nat) (ls : List WadLump) :
    findFirst nm ls = none ↔ ∀ l ∈ ls, l.name ≠ nm := by
  induction ls with
  | nil => simp [findFirst]
  | cons l ls ih =>
    by_cases h : l.name = nm
    · simp [findFirst, h]
    · simp only [findFirst, if_neg h, ih, List.mem_cons]
      constructor
      · rintro hall l2 (rfl | hmem)
        · exact h
        · exact hall l2 hmem
      · intro hall l2 hmem
        exact hall l2 (Or.inr hmem)

theorem findFirst_some_first (nm : List Nat) :
    ∀ (ls : List WadLump) (l : WadLump), findFirst nm ls = some l →
      l.name = nm ∧ ∃ i, i < ls.length ∧ ls.getD i ⟨[], []⟩ = l ∧
        ∀ j, j < i → (ls.getD j ⟨[], []⟩).name ≠ nm := by
  intro ls
  induction ls with
  | nil => intro l h; cases h
  | cons a ls ih =>
    intro l h
    by_cases ha : a.name = nm
    · rw [findFirst, if_pos ha] at h
      cases h
      exact ⟨ha, 0, by simp, by simp, fun j hj => absurd hj (by omega)⟩
    · rw [findFirst, if_neg ha] at h
      obtain ⟨hname, i, hi, hget, hfirst⟩ := ih l h
      refine ⟨hname, i + 1, by simpa using hi, by simpa using hget, ?_⟩
      intro j hj
      cases j with
      | zero => simpa using ha
      | succ j =>
        have := hfirst j (by omega)
        simpa using this

/-- C9. `find_lump` returns the first lump, in directory order, whose
decoded name equals the query exactly (name equality is plain equality
of the decoded code-point sequences, hence case-sensitive and with no
trimming beyond what name decoding already did), or none when no lump
matches; when several lumps share the name the returned index is
strictly before every other match. -/
theorem c9_find_first_match (w : WadFile) (nm : List Nat) :
    (findLump w nm = none ↔ ∀ l ∈ w.lumps, l.name ≠ nm) ∧
    (∀ l, findLump w nm = some l →
      l.name = nm ∧ ∃ i, i < w.lumps.length ∧ w.lumps.getD i ⟨[], []⟩ = l ∧
        ∀ j, j < i → (w.lumps.getD j ⟨[], []⟩).name ≠ nm) :=
  ⟨findFirst_none_iff nm w.lumps, fun l h => findFirst_some_first nm w.lumps l h⟩

/-- A container with two lumps that share the name "A" (code point 65)
but carry different data. -/
def wDup : WadFile := ⟨[⟨[65], [1]⟩, ⟨[65], [2]⟩]⟩

/-- Witness for C9: on `wDup` the search for "A" returns the first of
the two equally-named lumps (the one with data [1]), never the later
duplicate. -/
theorem c9_find_first_match_witness :
    (⟨[65], [1]⟩ : WadLump).name = [65] ∧
    ∃ i, i < wDup.lumps.length ∧ wDup.lumps.getD i ⟨[], []⟩ = ⟨[65], [1]⟩ ∧
      ∀ j, j < i → (wDup.lumps.getD j ⟨[], []⟩).name ≠ [65] :=
  (c9_find_first_match wDup [65]).2 ⟨[65], [1]⟩ (by decide)

theorem parseRecords_error_eq {α : Type} (size : Nat) (dec : List Nat → α) (l : List Nat)
    (e : MapErr) : parseRecords size dec l = .error e → e = .truncated :=
  parseRecGo_error_eq size dec l.length l e

theorem parseVertices_truncated_iff (d : List Nat) :
    parseVertices d = .error .truncated ↔ ¬ (4 ∣ d.length) := by
  unfold parseVertices
  exact parseRecords_truncated_iff 4 _ (by norm_num) d

theorem parseVertices_ok_iff (d : List Nat) :
    (∃ vs, parseVertices d = .ok vs) ↔ 4 ∣ d.length := by
  unfold parseVertices
  exact parseRecords_ok_iff 4 _ (by norm_num) d

theorem parseLinedefs_truncated_iff (d : List Nat) :
    parseLinedefs d = .error .truncated ↔ ¬ (14 ∣ d.length) := by
  unfold parseLinedefs
  exact parseRecords_truncated_iff 14 _ (by norm_num) d

theorem parseLinedefs_ok_iff (d : List Nat) :
    (∃ lds, parseLinedefs d = .ok lds) ↔ 14 ∣ d.length := by
  unfold parseLinedefs
  exact parseRecords_ok_iff 14 _ (by norm_num) d

theorem parseSidedefs_truncated_iff (d : List Nat) :
    parseSidedefs d = .error .truncated ↔ ¬ (30 ∣ d.length) := by
  unfold parseSidedefs
  exact parseRecords_truncated_iff 30 _ (by norm_num) d

theorem parseSidedefs_ok_iff (d : List Nat) :
    (∃ sds, parseSidedefs d = .ok sds) ↔ 30 ∣ d.length := by
  unfold parseSidedefs
  exact parseRecords_ok_iff 30 _ (by norm_num) d

theorem parseSectors_truncated_iff (d : List Nat) :
    parseSectors d = .error .truncated ↔ ¬ (26 ∣ d.length) := by
  unfold parseSectors
  exact parseRecords_truncated_iff 26 _ (by norm_num) d

theorem parseSectors_ok_iff (d : List Nat) :
    (∃ scs, parseSectors d = .ok scs) ↔ 26 ∣ d.length := by
  unfold parseSectors
  exact parseRecords_ok_iff 26 _ (by norm_num) d

theorem parseThings_truncated_iff (d : List Nat) :
    parseThings d = .error .truncated ↔ ¬ (10 ∣ d.length) := by
  unfold parseThings
  exact parseRecords_truncated_iff 10 _ (by norm_num) d

theorem parseThings_ok_iff (d : List Nat) :
    (∃ ths, parseThings d = .ok ths) ↔ 10 ∣ d.length := by
  unfold parseThings
  exact parseRecords_ok_iff 10 _ (by norm_num) d

theorem parseNodes_truncated_iff (d : List Nat) :
    parseNodes d = .error .truncated ↔ ¬ (28 ∣ d.length) := by
  unfold parseNodes
  exact parseRecords_truncated_iff 28 _ (by norm_num) d

theorem parseNodes_ok_iff (d : List Nat) :
    (∃ nds, parseNodes d = .ok nds) ↔ 28 ∣ d.length := by
  unfold parseNodes
  exact parseRecords_ok_iff 28 _ (by norm_num) d

theorem parseSubsectors_truncated_iff (d : List Nat) :
    parseSubsectors d = .error .truncated ↔ ¬ (4 ∣ d.length) := by
  unfold parseSubsectors
  exact parseRecords_truncated_iff 4 _ (by norm_num) d

theorem parseSubsectors_ok_iff (d : List Nat) :
    (∃ sss, parseSubsectors d = .ok sss) ↔ 4 ∣ d.length := by
  unfold parseSubsectors
  exact parseRecords_ok_iff 4 _ (by norm_num) d

theorem parseSegs_truncated_iff (d : List Nat) :
    parseSegs d = .error .truncated ↔ ¬ (12 ∣ d.length) := by
  unfold parseSegs
  exact parseRecords_truncated_iff 12 _ (by norm_num) d

/-- C4. Every map sub-lump whose byte length is not a multiple of its
record size makes the load abort with the truncation error (the cursor
read past the end of the lump), and no map value is produced. With all
positional offsets in range: if any of the five geometry sub-lumps is
misaligned (vertices 4, linedefs 14, sidedefs 30, sectors 26, things
10), the geometry load returns the truncation error, and if any of the
three BSP sub-lumps is misaligned (nodes 28, subsectors 4, segs 12),
the BSP load does; the result type carries no geometry in the error
case, so there is no partially-loaded map or tree. -/
theorem c4_misaligned_lump_rejected (w : WadFile) (nm : List Nat) (i : Nat)
    (hidx : firstIdx nm w.lumps = some i) (hlen : i + 8 < w.lumps.length) :
    (∀ d : List Nat, ¬ (4 ∣ d.length) → parseVertices d = .error .truncated) ∧
    ((¬ (4 ∣ (dataAt w (i + 4)).length) ∨ ¬ (14 ∣ (dataAt w (i + 2)).length) ∨
      ¬ (30 ∣ (dataAt w (i + 3)).length) ∨ ¬ (26 ∣ (dataAt w (i + 8)).length) ∨
      ¬ (10 ∣ (dataAt w (i + 1)).length)) →
      mapLoadFromWad w nm = .err .truncated) ∧
    ((¬ (28 ∣ (dataAt w (i + 7)).length) ∨ ¬ (4 ∣ (dataAt w (i + 6)).length) ∨
      ¬ (12 ∣ (dataAt w (i + 5)).length)) →
      bspLoadFromWad w nm = .err .truncated) := by
  have h1lt : i + 1 < w.lumps.length := by omega
  have h2lt : i + 2 < w.lumps.length := by omega
  have h3lt : i + 3 < w.lumps.length := by omega
  have h4lt : i + 4 < w.lumps.length := by omega
  have h5lt : i + 5 < w.lumps.length := by omega
  have h6lt : i + 6 < w.lumps.length := by omega
  have h7lt : i + 7 < w.lumps.length := by omega
  have h8lt : i + 8 < w.lumps.length := by omega
  have e1 : idxLump w (i + 1) = .ok (w.lumps.get ⟨i + 1, h1lt⟩) := by
    unfold idxLump
    rw [dif_pos h1lt]
  have e2 : idxLump w (i + 2) = .ok (w.lumps.get ⟨i + 2, h2lt⟩) := by
    unfold idxLump
    rw [dif_pos h2lt]
  have e3 : idxLump w (i + 3) = .ok (w.lumps.get ⟨i + 3, h3lt⟩) := by
    unfold idxLump
    rw [dif_pos h3lt]
  have e4 : idxLump w (i + 4) = .ok (w.lumps.get ⟨i + 4, h4lt⟩) := by
    unfold idxLump
    rw [dif_pos h4lt]
  have e5 : idxLump w (i + 5) = .ok (w.lumps.get ⟨i + 5, h5lt⟩) := by
    unfold idxLump
    rw [dif_pos h5lt]
  have e6 : idxLump w (i + 6) = .ok (w.lumps.get ⟨i + 6, h6lt⟩) := by
    unfold idxLump
    rw [dif_pos h6lt]
  have e7 : idxLump w (i + 7) = .ok (w.lumps.get ⟨i + 7, h7lt⟩) := by
    unfold idxLump
    rw [dif_pos h7lt]
  have e8 : idxLump w (i + 8) = .ok (w.lumps.get ⟨i + 8, h8lt⟩) := by
    unfold idxLump
    rw [dif_pos h8lt]
  have d1 : (w.lumps.get ⟨i + 1, h1lt⟩).data = dataAt w (i + 1) :=
    (dataAt_of_lt w (i + 1) h1lt).symm
  have d2 : (w.lumps.get ⟨i + 2, h2lt⟩).data = dataAt w (i + 2) :=
    (dataAt_of_lt w (i + 2) h2lt).symm
  have d3 : (w.lumps.get ⟨i + 3, h3lt⟩).data = dataAt w (i + 3) :=
    (dataAt_of_lt w (i + 3) h3lt).symm
  have d4 : (w.lumps.get ⟨i + 4, h4lt⟩).data = dataAt w (i + 4) :=
    (dataAt_of_lt w (i + 4) h4lt).symm
  have d5 : (w.lumps.get ⟨i + 5, h5lt⟩).data = dataAt w (i + 5) :=
    (dataAt_of_lt w (i + 5) h5lt).symm
  have d6 : (w.lumps.get ⟨i + 6, h6lt⟩).data = dataAt w (i + 6) :=
    (dataAt_of_lt w (i + 6) h6lt).symm
  have d7 : (w.lumps.get ⟨i + 7, h7lt⟩).data = dataAt w (i + 7) :=
    (dataAt_of_lt w (i + 7) h7lt).symm
  have d8 : (w.lumps.get ⟨i + 8, h8lt⟩).data = dataAt w (i + 8) :=
    (dataAt_of_lt w (i + 8) h8lt).symm
  refine ⟨fun d hd => (parseVertices_truncated_iff d).mpr hd, ?_, ?_⟩
  · intro hdis
    by_cases hA : 4 ∣ (dataAt w (i + 4)).length
    · obtain ⟨vs, hvs⟩ := (parseVertices_ok_iff _).mpr hA
      by_cases hB : 14 ∣ (dataAt w (i + 2)).length
      · obtain ⟨lds, hlds⟩ := (parseLinedefs_ok_iff _).mpr hB
        by_cases hC : 30 ∣ (dataAt w (i + 3)).length
        · obtain ⟨sds, hsds⟩ := (parseSidedefs_ok_iff _).mpr hC
          by_cases hD : 26 ∣ (dataAt w (i + 8)).length
          · obtain ⟨scs, hscs⟩ := (parseSectors_ok_iff _).mpr hD
            by_cases hE : 10 ∣ (dataAt w (i + 1)).length
            · rcases hdis with h | h | h | h | h
              exacts [absurd hA h, absurd hB h, absurd hC h, absurd hD h, absurd hE h]
            · have hpt : parseThings (dataAt w (i + 1)) = .error .truncated :=
                (parseThings_truncated_iff _).mpr hE
              simp only [mapLoadFromWad, hidx, e4, pbind_ok, d4, hvs, liftE, e2, d2, hlds,
                e3, d3, hsds, e8, d8, hscs, e1, d1, hpt, pbind_err]
          · have hpc : parseSectors (dataAt w (i + 8)) = .error .truncated :=
              (parseSectors_truncated_iff _).mpr hD
            simp only [mapLoadFromWad, hidx, e4, pbind_ok, d4, hvs, liftE, e2, d2, hlds,
              e3, d3, hsds, e8, d8, hpc, pbind_err]
        · have hps : parseSidedefs (dataAt w (i + 3)) = .error .truncated :=
            (parseSidedefs_truncated_iff _).mpr hC
          simp only [mapLoadFromWad, hidx, e4, pbind_ok, d4, hvs, liftE, e2, d2, hlds,
            e3, d3, hps, pbind_err]
      · have hpl : parseLinedefs (dataAt w (i + 2)) = .error .truncated :=
          (parseLinedefs_truncated_iff _).mpr hB
        simp only [mapLoadFromWad, hidx, e4, pbind_ok, d4, hvs, liftE, e2, d2, hpl, pbind_err]
    · have hpv : parseVertices (dataAt w (i + 4)) = .error .truncated :=
        (parseVertices_truncated_iff _).mpr hA
      simp only [mapLoadFromWad, hidx, e4, pbind_ok, d4, hpv, liftE, pbind_err]
  · intro hdis
    by_cases hN : 28 ∣ (dataAt w (i + 7)).length
    · obtain ⟨nds, hnds⟩ := (parseNodes_ok_iff _).mpr hN
      by_cases hS : 4 ∣ (dataAt w (i + 6)).length
      · obtain ⟨sss, hsss⟩ := (parseSubsectors_ok_iff _).mpr hS
        by_cases hG : 12 ∣ (dataAt w (i + 5)).length
        · rcases hdis with h | h | h
          exacts [absurd hN h, absurd hS h, absurd hG h]
        · have hpg : parseSegs (dataAt w (i + 5)) = .error .truncated :=
            (parseSegs_truncated_iff _).mpr hG
          simp only [bspLoadFromWad, hidx, e7, pbind_ok, d7, hnds, liftE, e6, d6, hsss,
            e5, d5, hpg, pbind_err]
      · have hps2 : parseSubsectors (dataAt w (i + 6)) = .error .truncated :=
          (parseSubsectors_truncated_iff _).mpr hS
        simp only [bspLoadFromWad, hidx, e7, pbind_ok, d7, hnds, liftE, e6, d6, hps2, pbind_err]
    · have hpn : parseNodes (dataAt w (i + 7)) = .error .truncated :=
        (parseNodes_truncated_iff _).mpr hN
      simp only [bspLoadFromWad, hidx, e7, pbind_ok, d7, hpn, liftE, pbind_err]

/-- A container with a marker named "MAP01" followed by eight lumps; the
lump at positional offset +4 (the vertex lump) has a one-byte payload,
whose length is not a multiple of the four-byte vertex record size. -/
def wBadVerts : WadFile :=
  ⟨[⟨m01, []⟩, ⟨[], []⟩, ⟨[], []⟩, ⟨[], []⟩, ⟨[], [0]⟩,
    ⟨[], []⟩, ⟨[], []⟩, ⟨[], []⟩, ⟨[], []⟩]⟩

/-- A container with a marker named "MAP01" followed by eight lumps; the
lump at positional offset +1 (the things lump) has a one-byte payload,
whose length is not a multiple of the ten-byte thing record size, while
every other sub-lump is empty and so aligned. -/
def wBadThings : WadFile :=
  ⟨[⟨m01, []⟩, ⟨[], [0]⟩, ⟨[], []⟩, ⟨[], []⟩, ⟨[], []⟩,
    ⟨[], []⟩, ⟨[], []⟩, ⟨[], []⟩, ⟨[], []⟩]⟩

/-- Witness for C4: a one-byte vertex lump makes the whole map load
abort with the truncation error, and so does a one-byte things lump (the
last sub-lump the loader parses) when every other sub-lump is aligned. -/
theorem c4_misaligned_lump_rejected_witness :
    (¬ (4 ∣ (dataAt wBadVerts 4).length) ∧ mapLoadFromWad wBadVerts m01 = .err .truncated) ∧
    (¬ (10 ∣ (dataAt wBadThings 1).length) ∧ mapLoadFromWad wBadThings m01 = .err .truncated) :=
  ⟨⟨by decide,
    (c4_misaligned_lump_rejected wBadVerts m01 0 (by decide) (by decide)).2.1
      (Or.inl (by decide))⟩,
   ⟨by decide,
    (c4_misaligned_lump_rejected wBadThings m01 0 (by decide) (by decide)).2.1
      (Or.inr (Or.inr (Or.inr (Or.inr (by decide)))))⟩⟩

theorem step_ne_nf {α β : Type} (w : WadFile) (j size : Nat) (dec : List Nat → α)
    (g : List α → PRes MapErr β) (hg : ∀ as, g as ≠ .err .notFound) :
    pbind (idxLump w j) (fun l => pbind (liftE (parseRecords size dec l.data)) g)
      ≠ .err .notFound := by
  intro h
  rcases (pbind_eq_err _ _ _).mp h with h1 | ⟨lv, _, h2⟩
  · exact idxLump_ne_err w j _ h1
  · rcases (pbind_eq_err _ _ _).mp h2 with h3 | ⟨as, _, h4⟩
    · rw [liftE_eq_err] at h3
      exact MapErr.noConfusion (parseRecords_error_eq size dec lv.data _ h3)
    · exact hg as h4

/-- C7. Map location is purely positional relative to the marker lump:
the geometry loader fails with the not-found error exactly when no lump
has the requested name, and on success each geometry array is decoded
from the lump at its fixed offset from the first lump with that name
(+1 things, +2 linedefs, +3 sidedefs, +4 vertices, +8 sectors); the BSP
loader likewise uses +5 segs, +6 subsectors, +7 nodes. Only the marker
search looks at names: the decoded arrays are determined by the data at
those directory positions. -/
theorem c7_positional_loading (w : WadFile) (nm : List Nat) :
    (mapLoadFromWad w nm = .err .notFound ↔ ∀ l ∈ w.lumps, l.name ≠ nm) ∧
    (∀ m, mapLoadFromWad w nm = .ok m → ∃ i, firstIdx nm w.lumps = some i ∧
      parseThings (dataAt w (i + 1)) = .ok m.things ∧
      parseLinedefs (dataAt w (i + 2)) = .ok m.linedefs ∧
      parseSidedefs (dataAt w (i + 3)) = .ok m.sidedefs ∧
      parseVertices (dataAt w (i + 4)) = .ok m.vertices ∧
      parseSectors (dataAt w (i + 8)) = .ok m.sectors) ∧
    (∀ t, bspLoadFromWad w nm = .ok t → ∃ i, firstIdx nm w.lumps = some i ∧
      parseSegs (dataAt w (i + 5)) = .ok t.segs ∧
      parseSubsectors (dataAt w (i + 6)) = .ok t.subsectors ∧
      parseNodes (dataAt w (i + 7)) = .ok t.nodes) := by
  refine ⟨?_, ?_, ?_⟩
  · cases hidx : firstIdx nm w.lumps with
    | none =>
      simp only [mapLoadFromWad, hidx]
      exact ⟨fun _ => (firstIdx_none_iff nm w.lumps).mp hidx, fun _ => trivial⟩
    | some i =>
      constructor
      · intro h
        exfalso
        simp only [mapLoadFromWad, hidx] at h
        refine step_ne_nf w (i + 4) 4 _ _ (fun vertices =>
          step_ne_nf w (i + 2) 14 _ _ (fun linedefs =>
            step_ne_nf w (i + 3) 30 _ _ (fun sidedefs =>
              step_ne_nf w (i + 8) 26 _ _ (fun sectors =>
                step_ne_nf w (i + 1) 10 _ _ (fun things hx => by cases hx))))) h
      · intro hall
        exfalso
        rw [(firstIdx_none_iff nm w.lumps).mpr hall] at hidx
        cases hidx
  · intro m h
    cases hidx : firstIdx nm w.lumps with
    | none => simp only [mapLoadFromWad, hidx] at h; cases h
    | some i =>
      simp only [mapLoadFromWad, hidx] at h
      rcases (pbind_eq_ok _ _ _).mp h with ⟨lv, hlv, h⟩
      rcases (pbind_eq_ok _ _ _).mp h with ⟨vs, hvs, h⟩
      rcases (pbind_eq_ok _ _ _).mp h with ⟨ll, hll, h⟩
      rcases (pbind_eq_ok _ _ _).mp h with ⟨lds, hlds, h⟩
      rcases (pbind_eq_ok _ _ _).mp h with ⟨ls3, hls3, h⟩
      rcases (pbind_eq_ok _ _ _).mp h with ⟨sds, hsds, h⟩
      rcases (pbind_eq_ok _ _ _).mp h with ⟨lc, hlc, h⟩
      rcases (pbind_eq_ok _ _ _).mp h with ⟨scs, hscs, h⟩
      rcases (pbind_eq_ok _ _ _).mp h with ⟨lt, hlt2, h⟩
      rcases (pbind_eq_ok _ _ _).mp h with ⟨ths, hths, h⟩
      cases h
      rcases (idxLump_eq_ok _ _ _).mp hlv with ⟨hb4, rfl⟩
      rcases (idxLump_eq_ok _ _ _).mp hll with ⟨hb2, rfl⟩
      rcases (idxLump_eq_ok _ _ _).mp hls3 with ⟨hb3, rfl⟩
      rcases (idxLump_eq_ok _ _ _).mp hlc with ⟨hb8, rfl⟩
      rcases (idxLump_eq_ok _ _ _).mp hlt2 with ⟨hb1, rfl⟩
      rw [liftE_eq_ok] at hvs hlds hsds hscs hths
      refine ⟨i, rfl, ?_, ?_, ?_, ?_, ?_⟩
      · rw [dataAt_of_lt w (i + 1) hb1]; exact hths
      · rw [dataAt_of_lt w (i + 2) hb2]; exact hlds
      · rw [dataAt_of_lt w (i + 3) hb3]; exact hsds
      · rw [dataAt_of_lt w (i + 4) hb4]; exact hvs
      · rw [dataAt_of_lt w (i + 8) hb8]; exact hscs
  · intro t h
    cases hidx : firstIdx nm w.lumps with
    | none => simp only [bspLoadFromWad, hidx] at h; cases h
    | some i =>
      simp only [bspLoadFromWad, hidx] at h
      rcases (pbind_eq_ok _ _ _).mp h with ⟨ln, hln, h⟩
      rcases (pbind_eq_ok _ _ _).mp h with ⟨nds, hnds, h⟩
      rcases (pbind_eq_ok _ _ _).mp h with ⟨lu, hlu, h⟩
      rcases (pbind_eq_ok _ _ _).mp h with ⟨sss, hsss, h⟩
      rcases (pbind_eq_ok _ _ _).mp h with ⟨lg, hlg, h⟩
      rcases (pbind_eq_ok _ _ _).mp h with ⟨sgs, hsgs, h⟩
      cases h
      rcases (idxLump_eq_ok _ _ _).mp hln with ⟨hb7, rfl⟩
      rcases (idxLump_eq_ok _ _ _).mp hlu with ⟨hb6, rfl⟩
      rcases (idxLump_eq_ok _ _ _).mp hlg with ⟨hb5, rfl⟩
      rw [liftE_eq_ok] at hnds hsss hsgs
      refine ⟨i, rfl, ?_, ?_, ?_⟩
      · rw [dataAt_of_lt w (i + 5) hb5]; exact hsgs
      · rw [dataAt_of_lt w (i + 6) hb6]; exact hsss
      · rw [dataAt_of_lt w (i + 7) hb7]; exact hnds

/-- A container with a marker named "MAP01" followed by eight lumps with
empty payloads: every sub-lump decodes to an empty record array. -/
def wEmptyMap : WadFile :=
  ⟨[⟨m01, []⟩, ⟨[], []⟩, ⟨[], []⟩, ⟨[], []⟩, ⟨[], []⟩,
    ⟨[], []⟩, ⟨[], []⟩, ⟨[], []⟩, ⟨[], []⟩]⟩

/-- Witness for C7: on `wEmptyMap` the geometry load succeeds with all
arrays empty and the characterization instantiates at marker index 0. -/
theorem c7_positional_loading_witness :
    ∃ i, firstIdx m01 wEmptyMap.lumps = some i ∧
      parseThings (dataAt wEmptyMap (i + 1)) = .ok [] ∧
      parseLinedefs (dataAt wEmptyMap (i + 2)) = .ok [] ∧
      parseSidedefs (dataAt wEmptyMap (i + 3)) = .ok [] ∧
      parseVertices (dataAt wEmptyMap (i + 4)) = .ok [] ∧
      parseSectors (dataAt wEmptyMap (i + 8)) = .ok [] :=
  (c7_positional_loading wEmptyMap m01).2.1 ⟨[], [], [], [], []⟩ (by decide)

/-- A container with a marker named "MAP01" followed by exactly seven
lumps: the vertex lump at offset +4 has a one-byte payload (so the
geometry loader rejects it with a parse error before ever reaching the
out-of-range sectors offset +8), and the lumps at offsets +5, +6, +7 are
empty (so the BSP loader succeeds). -/
def wSevenAfter : WadFile :=
  ⟨[⟨m01, []⟩, ⟨[], []⟩, ⟨[], []⟩, ⟨[], []⟩, ⟨[], [0]⟩,
    ⟨[], []⟩, ⟨[], []⟩, ⟨[], []⟩]⟩

/-- Counterexample to C10: a container in which the marker exists and
only seven lumps follow it, yet neither loader panics — the geometry
loader returns the truncation error (its vertex parse fails before the
out-of-range index at +8 is evaluated) and the BSP loader, whose highest
offset +7 is still in range, succeeds. -/
theorem c10_counterexample :
    firstIdx m01 wSevenAfter.lumps = some 0 ∧
    wSevenAfter.lumps.length = 8 ∧
    mapLoadFromWad wSevenAfter m01 = .err .truncated ∧
    bspLoadFromWad wSevenAfter m01 = .ok ⟨[], [], []⟩ := by
  refine ⟨by decide, by decide, by decide, by decide⟩

/-- C10 (amended). The positional lump accesses are unguarded: the BSP
loader panics whenever fewer than seven lumps follow the marker (its
first access, the nodes lump at +7, is then out of range), and the
geometry loader panics whenever fewer than eight lumps follow it and the
lumps it parses before the out-of-range access (vertices at +4, then
linedefs at +2, then sidedefs at +3) parse without error; successful
geometry loading therefore needs at least eight lumps after the marker. -/
theorem c10_unguarded_indexing (w : WadFile) (nm : List Nat) (i : Nat)
    (hidx : firstIdx nm w.lumps = some i) :
    (w.lumps.length ≤ i + 7 → bspLoadFromWad w nm = .panicked) ∧
    (w.lumps.length ≤ i + 8 →
      (∃ vs, parseVertices (dataAt w (i + 4)) = .ok vs) →
      (∃ lds, parseLinedefs (dataAt w (i + 2)) = .ok lds) →
      (∃ sds, parseSidedefs (dataAt w (i + 3)) = .ok sds) →
      mapLoadFromWad w nm = .panicked) := by
  constructor
  · intro hlen
    simp only [bspLoadFromWad, hidx, idxLump_panicked w (i + 7) hlen, pbind_panicked]
  · intro hlen hv hl hs
    by_cases h4 : i + 4 < w.lumps.length
    · have hv4 : idxLump w (i + 4) = .ok (w.lumps.get ⟨i + 4, h4⟩) := by
        unfold idxLump
        rw [dif_pos h4]
      obtain ⟨vs, hvs⟩ := hv
      rw [dataAt_of_lt w (i + 4) h4] at hvs
      by_cases h2 : i + 2 < w.lumps.length
      · have hv2 : idxLump w (i + 2) = .ok (w.lumps.get ⟨i + 2, h2⟩) := by
          unfold idxLump
          rw [dif_pos h2]
        obtain ⟨lds, hlds⟩ := hl
        rw [dataAt_of_lt w (i + 2) h2] at hlds
        by_cases h3 : i + 3 < w.lumps.length
        · have hv3 : idxLump w (i + 3) = .ok (w.lumps.get ⟨i + 3, h3⟩) := by
            unfold idxLump
            rw [dif_pos h3]
          obtain ⟨sds, hsds⟩ := hs
          rw [dataAt_of_lt w (i + 3) h3] at hsds
          have h8 : idxLump w (i + 8) = .panicked := idxLump_panicked w (i + 8) (by omega)
          simp only [mapLoadFromWad, hidx, hv4, pbind_ok, hvs, liftE, hv2, hlds, hv3, hsds,
            h8, pbind_panicked]
        · have hp3 : idxLump w (i + 3) = .panicked := idxLump_panicked w (i + 3) (by omega)
          simp only [mapLoadFromWad, hidx, hv4, pbind_ok, hvs, liftE, hv2, hlds, hp3,
            pbind_panicked]
      · have hp2 : idxLump w (i + 2) = .panicked := idxLump_panicked w (i + 2) (by omega)
        simp only [mapLoadFromWad, hidx, hv4, pbind_ok, hvs, liftE, hp2, pbind_panicked]
    · have hp4 : idxLump w (i + 4) = .panicked := idxLump_panicked w (i + 4) (by omega)
      simp only [mapLoadFromWad, hidx, hp4, pbind_panicked]

/-- A container holding only the marker lump "MAP01" and nothing else. -/
def wMarkerOnly : WadFile := ⟨[⟨m01, []⟩]⟩

/-- Witness for the amended C10: with no lumps after the marker at all,
both loaders panic on their first positional index. -/
theorem c10_unguarded_indexing_witness :
    bspLoadFromWad wMarkerOnly m01 = .panicked ∧
    mapLoadFromWad wMarkerOnly m01 = .panicked :=
  ⟨(c10_unguarded_indexing wMarkerOnly m01 0 (by decide)).1 (by decide),
   (c10_unguarded_indexing wMarkerOnly m01 0 (by decide)).2 (by decide)
     ⟨[], by decide⟩ ⟨[], by decide⟩ ⟨[], by decide⟩⟩

/-- Reflection of the viewer across the partition line of a node (the
line through the node origin with the node direction); defined only for
nodes whose direction is nonzero. This is the geometric construction
named by the specification when it says mirroring a point across the
partition line flips the side classification. -/
def mirrorPt (n : BspNode) (x y : ℚ) : ℚ × ℚ :=
  ((n.x : ℚ) + 2 * (((x - (n.x : ℚ)) * (n.dx : ℚ) + (y - (n.y : ℚ)) * (n.dy : ℚ))
      / ((n.dx : ℚ) ^ 2 + (n.dy : ℚ) ^ 2)) * (n.dx : ℚ) - (x - (n.x : ℚ)),
   (n.y : ℚ) + 2 * (((x - (n.x : ℚ)) * (n.dx : ℚ) + (y - (n.y : ℚ)) * (n.dy : ℚ))
      / ((n.dx : ℚ) ^ 2 + (n.dy : ℚ) ^ 2)) * (n.dy : ℚ) - (y - (n.y : ℚ)))

/-- C8. Antisymmetry of the side classification. For a node whose
partition direction is nonzero: reflecting the viewer across the
partition line negates the cross product, so any viewer strictly off the
line has its classification sign flipped by the reflection; a viewer
with cross product exactly zero is classified as -1, i.e. into the
non-positive ("left-first") branch; and inside the traversal a strictly
positive cross product selects right-first visiting order while a
non-positive one selects left-first. -/
theorem c8_point_on_side_antisymmetric (n : BspNode) (x y : ℚ)
    (hd : ¬ ((n.dx : ℚ) = 0 ∧ (n.dy : ℚ) = 0)) :
    crossAt (mirrorPt n x y).1 (mirrorPt n x y).2 n = - crossAt x y n ∧
    (crossAt x y n ≠ 0 →
      pointOnSide (mirrorPt n x y).1 (mirrorPt n x y).2 n = - pointOnSide x y n) ∧
    (crossAt x y n = 0 → pointOnSide x y n = -1) ∧
    (∀ (t : BspTree) (fuel r : Nat) (hr : r < t.nodes.length),
      t.nodes.get ⟨r, hr⟩ = n → r &&& 0x8000 = 0 →
      (0 < crossAt x y n →
        traverseBsp t (fuel + 1) x y r =
          tbind (traverseBsp t fuel x y n.rightChild) (fun acc =>
            if bboxVisible x y n.bboxLeft then
              tbind (traverseBsp t fuel x y n.leftChild) (fun acc2 => .ok (acc ++ acc2))
            else .ok acc)) ∧
      (crossAt x y n ≤ 0 →
        traverseBsp t (fuel + 1) x y r =
          tbind (traverseBsp t fuel x y n.leftChild) (fun acc =>
            if bboxVisible x y n.bboxRight then
              tbind (traverseBsp t fuel x y n.rightChild) (fun acc2 => .ok (acc ++ acc2))
            else .ok acc))) := by
  have hs : ((n.dx : ℚ) ^ 2 + (n.dy : ℚ) ^ 2) ≠ 0 := by
    intro h0
    apply hd
    constructor
    · have h1 : ((n.dx : ℚ)) ^ 2 = 0 := by nlinarith [sq_nonneg ((n.dx : ℚ)), sq_nonneg ((n.dy : ℚ))]
      exact (pow_eq_zero_iff (by norm_num)).mp h1
    · have h1 : ((n.dy : ℚ)) ^ 2 = 0 := by nlinarith [sq_nonneg ((n.dx : ℚ)), sq_nonneg ((n.dy : ℚ))]
      exact (pow_eq_zero_iff (by norm_num)).mp h1
  have hm : crossAt (mirrorPt n x y).1 (mirrorPt n x y).2 n = - crossAt x y n := by
    unfold crossAt mirrorPt
    field_simp
    ring
  refine ⟨hm, ?_, ?_, ?_⟩
  · intro hne
    rcases lt_or_gt_of_ne hne with hneg | hpos
    · have hmp : 0 < crossAt (mirrorPt n x y).1 (mirrorPt n x y).2 n := by
        rw [hm]; linarith
      have hnp : ¬ (0 < crossAt x y n) := by linarith
      simp [pointOnSide, hmp, hnp]
    · have hmn : ¬ (0 < crossAt (mirrorPt n x y).1 (mirrorPt n x y).2 n) := by
        rw [hm]; linarith
      simp [pointOnSide, hmn, hpos]
  · intro hzero
    simp [pointOnSide, hzero]
  · intro t fuel r hr hn hleaf
    have hnl : ¬ (r &&& 0x8000 ≠ 0) := by simp [hleaf]
    constructor
    · intro hpos
      have hside : pointOnSide x y (t.nodes.get ⟨r, hr⟩) = 1 := by
        rw [hn]; simp [pointOnSide, hpos]
      have hcond : ¬ ((1 : Int) ≤ 0) := by norm_num
      simp only [traverseBsp, if_neg hnl, dif_pos hr, List.get_eq_getElem] at *
      rw [hside]
      simp only [if_neg hcond, hn]
    · intro hnonpos
      have hside : pointOnSide x y (t.nodes.get ⟨r, hr⟩) = -1 := by
        rw [hn]
        have : ¬ (0 < crossAt x y n) := by linarith
        simp [pointOnSide, this]
      have hcond : ((-1 : Int) ≤ 0) := by norm_num
      simp only [traverseBsp, if_neg hnl, dif_pos hr, List.get_eq_getElem] at *
      rw [hside]
      simp only [if_pos hcond, hn]

/-- A node whose partition line is the x axis through the origin,
pointing along positive x. -/
def bspN0 : BspNode := ⟨0, 0, 1, 0, [0, 0, 0, 0], [0, 0, 0, 0], 0, 0⟩

/-- Witness for C8 at a concrete node and viewer: the viewer (0, 1) is
strictly off the x-axis partition line of `bspN0`; its mirror image has
the negated cross product and the opposite classification. -/
theorem c8_point_on_side_antisymmetric_witness :
    crossAt (mirrorPt bspN0 0 1).1 (mirrorPt bspN0 0 1).2 bspN0 = - crossAt 0 1 bspN0 ∧
    pointOnSide (mirrorPt bspN0 0 1).1 (mirrorPt bspN0 0 1).2 bspN0 = - pointOnSide 0 1 bspN0 := by
  have hd : ¬ (((bspN0.dx : ℚ) = 0) ∧ ((bspN0.dy : ℚ) = 0)) := by
    intro h
    have : ((1 : Int) : ℚ) = 0 := h.1
    norm_num at this
  have hne : crossAt 0 1 bspN0 ≠ 0 := by
    unfold crossAt bspN0
    norm_num
  exact ⟨(c8_point_on_side_antisymmetric bspN0 0 1 hd).1,
         (c8_point_on_side_antisymmetric bspN0 0 1 hd).2.1 hne⟩
